import Mathlib

/-!
Verification of the data pipeline of `painel-anestesia` (`app.py`): a
reporting dashboard that loads surgical-procedure rows from a SQL table,
cleans and normalizes them, filters them by categorical dimensions and a
name search, and aggregates them into KPIs and chart tables.

The shallow embedding below translates the pipeline functions of
`app.py` into Lean definitions:

* `normalizeText` embeds the text standardization of `load_data`
  (`astype(str).str.upper().str.strip()` followed by
  `replace(['NAN','NONE','NULL',''], 'NÃO INFORMADO')`);
* `coerceNum` embeds `pd.to_numeric(..., errors='coerce').fillna(0)`;
* `cleanRow` embeds the per-row cleaning of `load_data`;
* `load_data` embeds the control flow of the loader (connection
  fallback, query failure handling);
* `df_filtered` embeds the sequential `isin` dimension filters;
* `buscaResult` embeds the patient-name search
  (`str.contains` with its default regular-expression semantics,
  modelled by a matcher for literal characters and the `.` wildcard);
* `ticket_medio`, `total_val`, `topConvenios`, `hospTotals` embed the
  aggregations (pandas `groupby` emits groups in ascending key order;
  monetary values are modelled as rationals).

Python strings are modelled as Lean `String`s with an ASCII model of
`str.upper` and the ASCII whitespace set of `str.strip`.
-/

/-- ASCII whitespace recognized by Python `str.strip`:
space, tab, newline, carriage return, vertical tab, form feed. -/
def pyWs (c : Char) : Bool :=
  c.toNat = 32 || c.toNat = 9 || c.toNat = 10 || c.toNat = 13 ||
    c.toNat = 11 || c.toNat = 12

/-- ASCII model of Python `str.upper` on one character. -/
def pyUpperChar (c : Char) : Char :=
  if 97 ≤ c.toNat ∧ c.toNat ≤ 122 then Char.ofNat (c.toNat - 32) else c

/-- Model of Python `str.upper`. -/
def pyUpper (s : String) : String :=
  String.mk (s.data.map pyUpperChar)

/-- Model of Python `str.strip`: drop ASCII whitespace from both ends. -/
def pyStrip (s : String) : String :=
  String.mk (List.rdropWhile pyWs (List.dropWhile pyWs s.data))

/-- A raw text cell as it arrives from the SQL driver inside a pandas
column: a float NaN (missing value), a Python `None`, or a string. -/
inductive RawText where
  | nan : RawText
  | pynone : RawText
  | str (s : String) : RawText
deriving DecidableEq, Repr

/-- Model of pandas `astype(str)` on one cell: NaN prints as `"nan"`,
`None` prints as `"None"`, strings are unchanged. -/
def pyToString : RawText → String
  | .nan => "nan"
  | .pynone => "None"
  | .str s => s

/-- The replacement list of `load_data`:
`replace(['NAN', 'NONE', 'NULL', ''], 'NÃO INFORMADO')`. -/
def replaceList : List String := ["NAN", "NONE", "NULL", ""]

/-- The sentinel string substituted by `load_data`. -/
def naoInformado : String := "NÃO INFORMADO"

/-- Text standardization of `load_data` (app.py lines 104-105):
`astype(str).str.upper().str.strip()` then sentinel substitution. -/
def normalizeText (t : RawText) : String :=
  let u := pyStrip (pyUpper (pyToString t))
  if u ∈ replaceList then naoInformado else u

/-- Modelled from the spec: the null-like forms named by the spec, i.e.
inputs whose trimmed form is case-insensitively one of
`"nan"`, `"none"`, `"null"`, `""`, together with null inputs. -/
def specIsNullForm : RawText → Bool
  | .nan => true
  | .pynone => true
  | .str s => pyUpper (pyStrip s) ∈ replaceList

/-- A raw numeric cell: missing, a parsed number, or unparseable text. -/
inductive RawNum where
  | null : RawNum
  | num (x : ℚ) : RawNum
  | bad : RawNum
deriving DecidableEq, Repr

/-- Model of `pd.to_numeric(..., errors='coerce')` on one cell:
numbers parse to themselves, anything else coerces to a missing value. -/
def toNumericCoerce : RawNum → Option ℚ
  | .null => none
  | .num x => some x
  | .bad => none

/-- Model of `fillna(0)` on one cell. -/
def fillna0 : Option ℚ → ℚ
  | none => 0
  | some x => x

/-- Numeric cleaning of `load_data` (app.py lines 98-99):
`pd.to_numeric(..., errors='coerce').fillna(0)`. -/
def coerceNum (c : RawNum) : ℚ :=
  fillna0 (toNumericCoerce c)

/-- A raw row of the `dbo.FICHA` query result, with the column set of
the SELECT in `load_data` (app.py lines 88-90). The admission date is
an abstract day number. -/
structure RawRow where
  NUMERO_DA_FICHA : Int
  HOSPITAL : RawText
  DATA_INTERNACAO : Int
  NOME_DO_PACIENTE : RawText
  IDADE : RawNum
  SEXO : RawText
  NOME_CONVENIO : RawText
  ANESTESISTA : RawText
  CIRURGIAO1 : RawText
  OBSERVACAO : RawText
  SITUACAO : RawText
  VALOR : RawNum
deriving DecidableEq, Repr

/-- A cleaned in-memory record, as produced by the cleaning step of
`load_data`: the five text dimensions are normalized strings, age and
value are coerced numbers, the remaining columns are untouched. -/
structure Record where
  id : Int
  hospital : String
  admission_date : Int
  patient_name : String
  age : ℚ
  sex : RawText
  insurance_provider : String
  anesthesiologist : String
  surgeon : String
  notes : RawText
  status : RawText
  value : ℚ
deriving DecidableEq, Repr

/-- Per-row cleaning of `load_data` (app.py lines 97-105): numeric
coercion on IDADE and VALOR, text normalization on the five text
dimensions, all other columns passed through. -/
def cleanRow (r : RawRow) : Record where
  id := r.NUMERO_DA_FICHA
  hospital := normalizeText r.HOSPITAL
  admission_date := r.DATA_INTERNACAO
  patient_name := normalizeText r.NOME_DO_PACIENTE
  age := coerceNum r.IDADE
  sex := r.SEXO
  insurance_provider := normalizeText r.NOME_CONVENIO
  anesthesiologist := normalizeText r.ANESTESISTA
  surgeon := normalizeText r.CIRURGIAO1
  notes := r.OBSERVACAO
  status := r.SITUACAO
  value := coerceNum r.VALOR

/-- Ordering of records by admission date, used by
`df.sort_values('DATA_INTERNACAO')`. -/
def dateLe (a b : Record) : Prop :=
  a.admission_date ≤ b.admission_date

instance : DecidableRel dateLe := fun a b =>
  inferInstanceAs (Decidable (a.admission_date ≤ b.admission_date))

instance : IsTotal Record dateLe := ⟨fun a b => Int.le_total a.admission_date b.admission_date⟩

instance : IsTrans Record dateLe := ⟨fun _ _ _ h1 h2 => le_trans h1 h2⟩

/-- Outcome of `pd.read_sql` inside the `try` of `load_data`. -/
inductive QueryOutcome where
  | ok (rows : List RawRow) : QueryOutcome
  | failure (e : String) : QueryOutcome

/-- The operator-facing error message of `load_data`
(`st.error(f"Erro ao ler tabela: {e}")`). -/
def errMsgQuery (e : String) : String := "Erro ao ler tabela: " ++ e

/-- Control flow of `load_data` (app.py lines 84-111). The connection
is `init_connection()`'s result (`none` = unavailable); the query
outcome abstracts `pd.read_sql` and the in-`try` cleaning. Returns the
list of operator-facing error messages emitted, and the record set. -/
def load_data (conn : Option Unit) (q : QueryOutcome) : List String × List Record :=
  match conn with
  | none => ([], [])
  | some _ =>
    match q with
    | .ok rows => ([], List.insertionSort dateLe (rows.map cleanRow))
    | .failure e => ([errMsgQuery e], [])

/-- Sequential dimension filtering of app.py lines 141-148: each
non-empty multiselect list restricts the frame with `isin`. -/
def df_filtered (l : List Record) (selH selC selA : List String) : List Record :=
  let d1 := if selH.isEmpty then l else l.filter (fun r => decide (r.hospital ∈ selH))
  let d2 := if selC.isEmpty then d1 else d1.filter (fun r => decide (r.insurance_provider ∈ selC))
  let d3 := if selA.isEmpty then d2 else d2.filter (fun r => decide (r.anesthesiologist ∈ selA))
  d3

/-- The record set with strictly positive value
(`df_pagantes = df_filtered[df_filtered['VALOR'] > 0]`). -/
def df_pagantes (l : List Record) : List Record :=
  l.filter (fun r => decide (0 < r.value))

/-- Total billed value (`total_val = df_filtered['VALOR'].sum()`). -/
def total_val (l : List Record) : ℚ :=
  (l.map Record.value).sum

/-- Mean of a list of rationals, as pandas `Series.mean`. -/
def listMean (xs : List ℚ) : ℚ :=
  xs.sum / xs.length

/-- Average ticket (app.py line 156):
`df_pagantes['VALOR'].mean() if not df_pagantes.empty else 0`. -/
def ticket_medio (l : List Record) : ℚ :=
  if (df_pagantes l).isEmpty then 0 else listMean ((df_pagantes l).map Record.value)

/-- One token of the pattern sublanguage of Python `re` needed here:
a literal character or the `.` wildcard. -/
inductive RTok where
  | lit (c : Char) : RTok
  | dot : RTok
deriving DecidableEq, Repr

/-- Whether one pattern token matches one character: a literal matches
itself, `.` matches any character except a newline. -/
def tokMatch : RTok → Char → Bool
  | .lit a, c => c = a
  | .dot, c => !(c.toNat = 10)

/-- Compile a search string into pattern tokens: `.` becomes the
wildcard, every other character a literal. -/
def compilePat (s : String) : List RTok :=
  s.data.map (fun c => if c = '.' then RTok.dot else RTok.lit c)

/-- Match the whole token list against a prefix of the text. -/
def matchAt : List RTok → List Char → Bool
  | [], _ => true
  | _ :: _, [] => false
  | t :: ts, c :: cs => tokMatch t c && matchAt ts cs

/-- Unanchored search, as Python `re.search`: try every suffix. -/
def reSearch (p : List RTok) : List Char → Bool
  | [] => matchAt p []
  | c :: cs => matchAt p (c :: cs) || reSearch p cs

/-- pandas `Series.str.contains(pat)` with its default
regular-expression semantics, on one cell. -/
def pdStrContains (hay pat : String) : Bool :=
  reSearch (compilePat pat) hay.data

/-- Patient-name search of app.py lines 165-169: when the search box
is non-empty (Python truthiness of the string), restrict `df_filtered`
by `str.contains(nome_busca.upper())`; when it is empty no search
result is computed at all (`none`). -/
def buscaResult (l : List Record) (nome : String) : Option (List Record) :=
  if nome = "" then none
  else some (l.filter (fun r => pdStrContains r.patient_name (pyUpper nome)))

/-- The metacharacters of Python regular expressions; a search string
avoiding them is matched literally by `re.search`. -/
def metaChars : List Char :=
  ['.', '^', '$', '*', '+', '?', Char.ofNat 123, Char.ofNat 125,
    '[', ']', '(', ')', '\\', '|']

/-- Ordering of count rows by descending count, used by
`sort_values('NUMERO_DA_FICHA', ascending=False)`. -/
def cntGe (a b : String × Nat) : Prop := b.2 ≤ a.2

instance : DecidableRel cntGe := fun a b => inferInstanceAs (Decidable (b.2 ≤ a.2))

instance : IsTotal (String × Nat) cntGe := ⟨fun a b => Nat.le_total b.2 a.2⟩

instance : IsTrans (String × Nat) cntGe := ⟨fun _ _ _ h1 h2 => le_trans h2 h1⟩

/-- Ordering of sum rows by descending summed value, used by
`sort_values('VALOR', ascending=False)`. -/
def valGe (a b : String × ℚ) : Prop := b.2 ≤ a.2

instance : DecidableRel valGe := fun a b => inferInstanceAs (Decidable (b.2 ≤ a.2))

instance : IsTotal (String × ℚ) valGe := ⟨fun a b => le_total b.2 a.2⟩

instance : IsTrans (String × ℚ) valGe := ⟨fun _ _ _ h1 h2 => le_trans h2 h1⟩

/-- Lexicographic comparison of character lists by code point, the
order in which pandas sorts string group keys. -/
def strLeB : List Char → List Char → Bool
  | [], _ => true
  | _ :: _, [] => false
  | a :: as, b :: bs =>
    if a.toNat < b.toNat then true
    else if b.toNat < a.toNat then false
    else strLeB as bs

/-- Lexicographic order on strings by code point. -/
def strLe (a b : String) : Prop := strLeB a.data b.data = true

instance : DecidableRel strLe := fun a b =>
  inferInstanceAs (Decidable (strLeB a.data b.data = true))

instance : IsTotal String strLe := by
  constructor
  intro a b
  suffices h : ∀ x y : List Char, strLeB x y = true ∨ strLeB y x = true from
    h a.data b.data
  intro x
  induction x with
  | nil => intro y; left; rfl
  | cons p ps ih =>
    intro y
    cases y with
    | nil => right; rfl
    | cons q qs =>
      by_cases h1 : p.toNat < q.toNat
      · left; simp [strLeB, h1]
      · by_cases h2 : q.toNat < p.toNat
        · right; simp [strLeB, h1, h2]
        · rcases ih qs with h3 | h3
          · left; simp [strLeB, h1, h2, h3]
          · right; simp [strLeB, h1, h2, h3]

instance : IsTrans String strLe := by
  constructor
  intro a b c hab hbc
  rw [strLe] at hab hbc ⊢
  revert hab hbc
  suffices h : ∀ x y z : List Char, strLeB x y = true → strLeB y z = true →
      strLeB x z = true from h a.data b.data c.data
  intro x
  induction x with
  | nil => intro y z _ _; rfl
  | cons p ps ih =>
    intro y z hxy hyz
    cases y with
    | nil => simp [strLeB] at hxy
    | cons q qs =>
      cases z with
      | nil => simp [strLeB] at hyz
      | cons w ws =>
        by_cases h1 : p.toNat < q.toNat <;> by_cases h2 : q.toNat < w.toNat
        · simp [strLeB, show p.toNat < w.toNat by omega]
        · by_cases h2' : w.toNat < q.toNat
          · simp [strLeB, h2, h2'] at hyz
          · simp [strLeB, show p.toNat < w.toNat by omega]
        · by_cases h1' : q.toNat < p.toNat
          · simp [strLeB, h1, h1'] at hxy
          · simp [strLeB, show p.toNat < w.toNat by omega]
        · by_cases h1' : q.toNat < p.toNat
          · simp [strLeB, h1, h1'] at hxy
          · by_cases h2' : w.toNat < q.toNat
            · simp [strLeB, h2, h2'] at hyz
            · simp only [strLeB, if_neg h1, if_neg h1'] at hxy
              simp only [strLeB, if_neg h2, if_neg h2'] at hyz
              simp only [strLeB, if_neg (show ¬ p.toNat < w.toNat by omega),
                if_neg (show ¬ w.toNat < p.toNat by omega)]
              exact ih qs ws hxy hyz

/-- pandas `groupby(key)` group keys: the distinct key values in
ascending order (`groupby` sorts group keys by default). -/
def groupKeys (key : Record → String) (l : List Record) : List String :=
  List.insertionSort strLe (l.map key).dedup

/-- Embedding of `df_filtered.groupby('NOME_CONVENIO')['NUMERO_DA_FICHA'].count()`
(app.py line 180): one row per distinct provider in ascending key
order, with the number of records in the group. -/
def convGroupCount (l : List Record) : List (String × Nat) :=
  (groupKeys Record.insurance_provider l).map
    (fun k => (k, l.countP (fun r => decide (r.insurance_provider = k))))

/-- Embedding of app.py lines 180-181: group by provider, count, sort
descending by count, keep the first 10 rows. The descending sort is
modelled by an insertion sort; pandas' default `sort_values` kind is
an unstable quicksort, so the order of rows with tied counts is not
guaranteed by the code, and no property proved below depends on it. -/
def topConvenios (l : List Record) : List (String × Nat) :=
  (List.insertionSort cntGe (convGroupCount l)).take 10

/-- Embedding of `df_filtered.groupby('HOSPITAL')['VALOR'].sum()`
(app.py line 186): one row per distinct hospital in ascending key
order, with the summed value of the group. -/
def hospGroupSum (l : List Record) : List (String × ℚ) :=
  (groupKeys Record.hospital l).map
    (fun k => (k, ((l.filter (fun r => decide (r.hospital = k))).map Record.value).sum))

/-- Embedding of app.py lines 186-187: group by hospital, sum value,
sort descending by summed value. -/
def hospTotals (l : List Record) : List (String × ℚ) :=
  List.insertionSort valGe (hospGroupSum l)

/-- Helper for concrete test records: a record with the given
hospital, insurance provider, patient name and value. -/
def sampleRec (hosp conv name : String) (v : ℚ) : Record where
  id := 1
  hospital := hosp
  admission_date := 0
  patient_name := name
  age := 0
  sex := .nan
  insurance_provider := conv
  anesthesiologist := "X"
  surgeon := "Y"
  notes := .nan
  status := .nan
  value := v

/-- Helper for concrete test rows: a raw row with the given value
cell, all other cells fixed. -/
def sampleRow (v : RawNum) : RawRow where
  NUMERO_DA_FICHA := 1
  HOSPITAL := .str "A"
  DATA_INTERNACAO := 0
  NOME_DO_PACIENTE := .str "P"
  IDADE := .num 30
  SEXO := .str "F"
  NOME_CONVENIO := .str "C"
  ANESTESISTA := .str "X"
  CIRURGIAO1 := .str "Y"
  OBSERVACAO := .nan
  SITUACAO := .str "OK"
  VALOR := v

/-! Character-level facts about the ASCII upper-case map and the
whitespace predicate. -/

lemma charOfNat_toNat {n : Nat} (h : n < 55296) : (Char.ofNat n).toNat = n := by
  unfold Char.ofNat
  rw [dif_pos (Or.inl h)]
  rfl

lemma pyUpperChar_toNat_of_lower {c : Char} (h : 97 ≤ c.toNat ∧ c.toNat ≤ 122) :
    (pyUpperChar c).toNat = c.toNat - 32 := by
  rw [pyUpperChar, if_pos h]
  exact charOfNat_toNat (by omega)

lemma pyUpperChar_of_not_lower {c : Char} (h : ¬(97 ≤ c.toNat ∧ c.toNat ≤ 122)) :
    pyUpperChar c = c := by
  rw [pyUpperChar, if_neg h]

lemma pyUpperChar_idem (c : Char) : pyUpperChar (pyUpperChar c) = pyUpperChar c := by
  by_cases h : 97 ≤ c.toNat ∧ c.toNat ≤ 122
  · have ht : (pyUpperChar c).toNat = c.toNat - 32 := pyUpperChar_toNat_of_lower h
    exact pyUpperChar_of_not_lower (by omega)
  · rw [pyUpperChar_of_not_lower h]
    exact pyUpperChar_of_not_lower h

lemma pyWs_eq_false_of_ge {c : Char} (h : 33 ≤ c.toNat) : pyWs c = false := by
  simp only [pyWs, Bool.or_eq_false_iff, decide_eq_false_iff_not]
  omega

lemma pyWs_pyUpperChar (c : Char) : pyWs (pyUpperChar c) = pyWs c := by
  by_cases h : 97 ≤ c.toNat ∧ c.toNat ≤ 122
  · have ht : (pyUpperChar c).toNat = c.toNat - 32 := pyUpperChar_toNat_of_lower h
    rw [pyWs_eq_false_of_ge (by omega), pyWs_eq_false_of_ge (by omega)]
  · rw [pyUpperChar_of_not_lower h]

/-! String-level facts: the upper-case map is idempotent, the strip is
idempotent, and the two commute. -/

lemma pyUpper_pyUpper (s : String) : pyUpper (pyUpper s) = pyUpper s := by
  simp only [pyUpper, List.map_map]
  congr 1
  exact List.map_congr_left (fun c _ => pyUpperChar_idem c)

lemma dropWhile_of_dropWhile_eq_self {p : Char → Bool} {l : List Char}
    (h : List.dropWhile p l = l) :
    List.dropWhile p (List.rdropWhile p l) = List.rdropWhile p l := by
  have hp := List.rdropWhile_prefix p l
  obtain ⟨t, ht⟩ := hp
  cases hr : List.rdropWhile p l with
  | nil => simp
  | cons b bs =>
    have hlb : l = b :: (bs ++ t) := by
      rw [← ht, hr]
      simp
    have hb : ¬ p b := by
      rw [hlb] at h
      have hh := List.dropWhile_eq_self_iff.mp h (by simp)
      simpa using hh
    rw [List.dropWhile_cons, if_neg hb]

lemma pyStrip_pyStrip (s : String) : pyStrip (pyStrip s) = pyStrip s := by
  simp only [pyStrip]
  congr 1
  rw [dropWhile_of_dropWhile_eq_self (List.dropWhile_idempotent pyWs s.data)]
  exact List.rdropWhile_idempotent pyWs _

lemma pyWs_comp_pyUpperChar : (pyWs ∘ pyUpperChar) = pyWs := by
  funext c
  exact pyWs_pyUpperChar c

lemma pyStrip_pyUpper (s : String) : pyStrip (pyUpper s) = pyUpper (pyStrip s) := by
  simp only [pyStrip, pyUpper, List.rdropWhile]
  rw [List.dropWhile_map, pyWs_comp_pyUpperChar, ← List.map_reverse,
    List.dropWhile_map, pyWs_comp_pyUpperChar, ← List.map_reverse]

lemma pyUpper_stripUpper (s : String) :
    pyUpper (pyStrip (pyUpper s)) = pyStrip (pyUpper s) := by
  rw [← pyStrip_pyUpper, pyUpper_pyUpper]

lemma normalizeText_str_of_normalized (s : String)
    (h : pyStrip (pyUpper (pyToString (.str s))) ∉ replaceList) :
    normalizeText (.str (pyStrip (pyUpper (pyToString (.str s))))) =
      pyStrip (pyUpper (pyToString (.str s))) := by
  simp only [pyToString] at h ⊢
  rw [normalizeText]
  simp only [pyToString, pyUpper_stripUpper, pyStrip_pyStrip]
  rw [if_neg h]

/-- C8: the text-normalization of `load_data` (upper-case, strip,
sentinel substitution) is idempotent: re-normalizing the normalized
value yields the same result as normalizing once. -/
theorem C8_normalization_idempotent (t : RawText) :
    normalizeText (.str (normalizeText t)) = normalizeText t := by
  by_cases h : pyStrip (pyUpper (pyToString t)) ∈ replaceList
  · have h1 : normalizeText t = naoInformado := by
      rw [normalizeText]
      exact if_pos h
    rw [h1]
    decide
  · have h1 : normalizeText t = pyStrip (pyUpper (pyToString t)) := by
      rw [normalizeText]
      exact if_neg h
    cases t with
    | nan => exact absurd (by decide) h
    | pynone => exact absurd (by decide) h
    | str s =>
      rw [h1]
      exact normalizeText_str_of_normalized s h

/-- C2 counterexample: the code's sentinel is the Portuguese string
`"NÃO INFORMADO"`, not the literal `"NOT INFORMED"` stated by the
claim: the null-form input `"  null  "` normalizes to the former. -/
theorem C2_sentinel_counterexample :
    normalizeText (RawText.str "  null  ") = "NÃO INFORMADO" ∧
      normalizeText (RawText.str "  null  ") ≠ "NOT INFORMED" := by
  constructor
  · decide
  · decide

/-- C2 amended: normalization upper-cases, trims, and maps exactly the
inputs whose trimmed form is case-insensitively one of
`"nan"`, `"none"`, `"null"`, `""` (including whitespace-only and null
inputs) to the sentinel `"NÃO INFORMADO"`; every other value becomes
its upper-cased trimmed form. -/
theorem C2_normalization_amended (t : RawText) :
    normalizeText t =
      if specIsNullForm t then naoInformado
      else pyStrip (pyUpper (pyToString t)) := by
  cases t with
  | nan => decide
  | pynone => decide
  | str s =>
    simp only [normalizeText, specIsNullForm, pyToString, pyStrip_pyUpper,
      decide_eq_true_eq]

/-- C3 counterexample: a parseable negative source value passes
through the loader's coercion unchanged, so a loaded record can carry
a negative value, contradicting the claimed non-negativity. -/
theorem C3_negative_value_counterexample :
    (cleanRow (sampleRow (RawNum.num (-50)))).value = -50 ∧
      ¬ 0 ≤ (cleanRow (sampleRow (RawNum.num (-50)))).value := by
  constructor
  · decide
  · decide

/-- C3 amended: the coercion of `load_data` maps unparseable and null
source cells to exactly 0 (never an error, never a missing-value
marker) and passes every parsed number through unchanged; the loader
itself enforces no sign or finiteness constraint. -/
theorem C3_coercion_amended (r : RawRow) :
    (cleanRow r).age = coerceNum r.IDADE ∧
    (cleanRow r).value = coerceNum r.VALOR ∧
    coerceNum RawNum.null = 0 ∧
    coerceNum RawNum.bad = 0 ∧
    ∀ x : ℚ, coerceNum (RawNum.num x) = x :=
  ⟨rfl, rfl, rfl, rfl, fun _ => rfl⟩

/-- C10: the cleaning step of `load_data` changes only the five
normalized text fields and the two coerced numeric fields; id,
admission date, sex, notes and status pass through unchanged. -/
theorem C10_clean_frame (r : RawRow) :
    (cleanRow r).id = r.NUMERO_DA_FICHA ∧
    (cleanRow r).admission_date = r.DATA_INTERNACAO ∧
    (cleanRow r).sex = r.SEXO ∧
    (cleanRow r).notes = r.OBSERVACAO ∧
    (cleanRow r).status = r.SITUACAO ∧
    (cleanRow r).hospital = normalizeText r.HOSPITAL ∧
    (cleanRow r).patient_name = normalizeText r.NOME_DO_PACIENTE ∧
    (cleanRow r).insurance_provider = normalizeText r.NOME_CONVENIO ∧
    (cleanRow r).anesthesiologist = normalizeText r.ANESTESISTA ∧
    (cleanRow r).surgeon = normalizeText r.CIRURGIAO1 ∧
    (cleanRow r).age = coerceNum r.IDADE ∧
    (cleanRow r).value = coerceNum r.VALOR :=
  ⟨rfl, rfl, rfl, rfl, rfl, rfl, rfl, rfl, rfl, rfl, rfl, rfl⟩

/-- C7: when the connection is unavailable `load_data` returns an
empty record set with no error message, and when query execution fails
it emits the operator-facing message and returns an empty record set;
both outcomes are ordinary return values, not exceptions. -/
theorem C7_loader_degrades_to_empty (q : QueryOutcome) (e : String) :
    load_data none q = ([], []) ∧
      load_data (some ()) (QueryOutcome.failure e) = ([errMsgQuery e], []) :=
  ⟨rfl, rfl⟩

/-- C1: the average ticket is the arithmetic mean of `value` over
exactly the records with strictly positive value (stated as the
product form `mean * count = sum`, which pins the mean whenever the
count is non-zero), and it is exactly 0 when no such record exists. -/
theorem C1_ticket_medio_mean (l : List Record) :
    ticket_medio l * ((l.filter (fun r => decide (0 < r.value))).length : ℚ) =
      ((l.filter (fun r => decide (0 < r.value))).map Record.value).sum ∧
      (l.filter (fun r => decide (0 < r.value)) = [] → ticket_medio l = 0) := by
  constructor
  · show ticket_medio l * ((df_pagantes l).length : ℚ) =
      ((df_pagantes l).map Record.value).sum
    by_cases h : (df_pagantes l).isEmpty
    · rw [ticket_medio, if_pos h]
      rw [List.isEmpty_iff] at h
      simp [h]
    · rw [ticket_medio, if_neg h, listMean, List.length_map]
      rw [List.isEmpty_iff] at h
      have hpos : 0 < (df_pagantes l).length := List.length_pos.mpr h
      have hne : ((df_pagantes l).length : ℚ) ≠ 0 := by
        exact_mod_cast Nat.pos_iff_ne_zero.mp hpos
      exact div_mul_cancel₀ _ hne
  · intro h
    show ticket_medio l = 0
    rw [ticket_medio, if_pos]
    rw [List.isEmpty_iff]
    exact h

/-- C1 witness: on a single record with value 0 there is no
positive-value record and the average ticket is exactly 0. -/
theorem C1_ticket_medio_mean_witness :
    ticket_medio [sampleRec "A" "C" "P" 0] = 0 :=
  (C1_ticket_medio_mean [sampleRec "A" "C" "P" 0]).2 (by decide)

/-- C6: the dimension filters keep exactly the records whose field
value lies in each non-empty selection list (an empty selection
imposes no restriction), combined by logical AND, and the output is a
sublist of the input, hence preserves its relative order. -/
theorem C6_dimension_filters (l : List Record) (selH selC selA : List String) :
    df_filtered l selH selC selA =
      l.filter (fun r =>
        ((selH.isEmpty || decide (r.hospital ∈ selH)) &&
          (selC.isEmpty || decide (r.insurance_provider ∈ selC))) &&
        (selA.isEmpty || decide (r.anesthesiologist ∈ selA))) ∧
    List.Sublist (df_filtered l selH selC selA) l := by
  have hff : ∀ (m : List Record) (p q : Record → Bool),
      (m.filter p).filter q = m.filter (fun a => p a && q a) := by
    intro m p q
    induction m with
    | nil => rfl
    | cons a t ih => by_cases hp : p a <;> by_cases hq : q a <;> simp [hp, hq, ih]
  have he : df_filtered l selH selC selA =
      l.filter (fun r =>
        ((selH.isEmpty || decide (r.hospital ∈ selH)) &&
          (selC.isEmpty || decide (r.insurance_provider ∈ selC))) &&
        (selA.isEmpty || decide (r.anesthesiologist ∈ selA))) := by
    unfold df_filtered
    cases hH : selH.isEmpty <;> cases hC : selC.isEmpty <;> cases hA : selA.isEmpty <;>
      simp [hH, hC, hA, hff]
  exact ⟨he, he ▸ List.filter_sublist l⟩

lemma mem_convGroupCount {l : List Record} {p : String × Nat}
    (hp : p ∈ convGroupCount l) :
    p.2 = l.countP (fun r => decide (r.insurance_provider = p.1)) := by
  obtain ⟨k, _, he⟩ := List.mem_map.mp hp
  rw [← he]

/-- C4 counterexample: with the providers encountered in the order
`"B"`, `"A"` and equal counts, the top-provider table lists `"A"`
first: `groupby` emits the two groups in ascending key order, and the
descending count sort moves nothing at this input (the two rows are
tied, and on a two-element array any comparison sort, stable or not,
leaves tied rows in place). The claimed first-encounter tie order
would list `"B"` first. -/
theorem C4_tie_order_counterexample :
    topConvenios [sampleRec "H" "B" "P" 1, sampleRec "H" "A" "P" 1] =
      [("A", 1), ("B", 1)] ∧
    (topConvenios [sampleRec "H" "B" "P" 1, sampleRec "H" "A" "P" 1]).head? ≠
      some ("B", 1) := by
  constructor
  · decide
  · decide

/-- C4 amended: the top-provider table has at most 10 rows, is sorted
non-increasing by count, and every row carries the exact record count
of its provider group. No tie order among equal counts is asserted:
the first-encounter order of the claim fails (see the counterexample),
and the code fixes no particular tie order in general (`groupby`
pre-sorts the group keys and the default `sort_values` kind is an
unstable quicksort). -/
theorem C4_top_providers_amended (l : List Record) :
    (topConvenios l).length ≤ 10 ∧
    List.Sorted cntGe (topConvenios l) ∧
    ∀ p ∈ topConvenios l,
      p.2 = l.countP (fun r => decide (r.insurance_provider = p.1)) := by
  refine ⟨?_, ?_, ?_⟩
  · rw [topConvenios, List.length_take]
    exact min_le_left _ _
  · have hs : List.Sorted cntGe (List.insertionSort cntGe (convGroupCount l)) :=
      List.sorted_insertionSort cntGe (convGroupCount l)
    exact hs.sublist (List.take_sublist 10 _)
  · intro p hp
    have h1 : p ∈ List.insertionSort cntGe (convGroupCount l) :=
      (List.take_sublist 10 _).subset hp
    have h2 : p ∈ convGroupCount l :=
      (List.perm_insertionSort cntGe _).subset h1
    exact mem_convGroupCount h2

/-- C4 witness: on a two-record input the amended bound, count and
membership facts hold at the concrete row `("A", 1)`. -/
theorem C4_top_providers_amended_witness :
    (topConvenios [sampleRec "H" "B" "P" 1, sampleRec "H" "A" "P" 1]).length ≤ 10 ∧
    ("A", 1).2 = List.countP
      (fun r => decide (r.insurance_provider = ("A", 1).1))
      [sampleRec "H" "B" "P" 1, sampleRec "H" "A" "P" 1] :=
  ⟨(C4_top_providers_amended [sampleRec "H" "B" "P" 1, sampleRec "H" "A" "P" 1]).1,
    (C4_top_providers_amended [sampleRec "H" "B" "P" 1, sampleRec "H" "A" "P" 1]).2.2
      ("A", 1) (by decide)⟩

lemma sum_map_ite_of_mem {x : String} {K : List String} (c : ℚ)
    (hx : x ∈ K) (hn : K.Nodup) :
    (K.map (fun k => if x = k then c else 0)).sum = c := by
  induction K with
  | nil => cases hx
  | cons a t ih =>
    rw [List.map_cons, List.sum_cons]
    rcases List.mem_cons.mp hx with rfl | hmem
    · rw [if_pos rfl]
      have hxn : x ∉ t := (List.nodup_cons.mp hn).1
      have hz : (t.map (fun k => if x = k then c else 0)).sum = 0 := by
        apply List.sum_eq_zero
        intro q hq
        obtain ⟨k, hk, he⟩ := List.mem_map.mp hq
        rw [← he, if_neg]
        intro hxe
        exact hxn (hxe ▸ hk)
      rw [hz, add_zero]
    · have hna : x ≠ a := by
        rintro rfl
        exact (List.nodup_cons.mp hn).1 hmem
      rw [if_neg hna, zero_add]
      exact ih hmem (List.nodup_cons.mp hn).2

lemma sum_fiberwise_eq (v : Record → ℚ) (key : Record → String) :
    ∀ (l : List Record) (K : List String), K.Nodup → (∀ r ∈ l, key r ∈ K) →
      (K.map (fun k => ((l.filter (fun r => decide (key r = k))).map v).sum)).sum
        = (l.map v).sum := by
  intro l
  induction l with
  | nil =>
    intro K _ _
    simp
  | cons r t ih =>
    intro K hn hcov
    have hstep : ∀ k : String,
        ((List.filter (fun x => decide (key x = k)) (r :: t)).map v).sum
          = (if key r = k then v r else 0)
            + ((t.filter (fun x => decide (key x = k))).map v).sum := by
      intro k
      by_cases h : key r = k
      · simp [List.filter_cons, h]
      · simp [List.filter_cons, h]
    simp only [hstep]
    rw [List.sum_map_add]
    rw [sum_map_ite_of_mem (v r) (hcov r (List.mem_cons_self r t)) hn]
    rw [ih K hn (fun x hx => hcov x (List.mem_cons_of_mem r hx))]
    simp

/-- C9: the per-hospital value totals sum to the total value of the
record set, exactly in the rational model (hence within floating-point
tolerance in the original), since hospital grouping partitions the
records. -/
theorem C9_hospital_totals_conservation (l : List Record) :
    ((hospTotals l).map Prod.snd).sum = total_val l := by
  have hperm : List.Perm (hospTotals l) (hospGroupSum l) :=
    List.perm_insertionSort valGe _
  have h1 : ((hospTotals l).map Prod.snd).sum = ((hospGroupSum l).map Prod.snd).sum :=
    (hperm.map Prod.snd).sum_eq
  rw [h1, hospGroupSum, List.map_map]
  have hp2 : List.Perm (groupKeys Record.hospital l) (l.map Record.hospital).dedup :=
    List.perm_insertionSort strLe _
  have hkn : (groupKeys Record.hospital l).Nodup :=
    hp2.nodup_iff.mpr (List.nodup_dedup _)
  have hcov : ∀ r ∈ l, Record.hospital r ∈ groupKeys Record.hospital l := by
    intro r hr
    rw [hp2.mem_iff, List.mem_dedup]
    exact List.mem_map_of_mem Record.hospital hr
  exact sum_fiberwise_eq Record.value Record.hospital l _ hkn hcov

lemma matchAt_lits (p : List Char) :
    ∀ s : List Char, matchAt (p.map RTok.lit) s = true ↔ p <+: s := by
  induction p with
  | nil =>
    intro s
    constructor
    · intro _
      exact List.nil_prefix
    · intro _
      rfl
  | cons a p' ih =>
    intro s
    cases s with
    | nil =>
      simp only [List.map_cons, matchAt]
      constructor
      · intro h
        cases h
      · intro h
        have := List.prefix_nil.mp h
        cases this
    | cons c cs =>
      simp only [List.map_cons, matchAt, tokMatch, Bool.and_eq_true, decide_eq_true_eq]
      rw [List.cons_prefix_cons, ih cs]
      constructor
      · rintro ⟨h1, h2⟩
        exact ⟨h1.symm, h2⟩
      · rintro ⟨h1, h2⟩
        exact ⟨h1.symm, h2⟩

lemma reSearch_lits (p : List Char) :
    ∀ s : List Char, reSearch (p.map RTok.lit) s = true ↔ p <:+: s := by
  intro s
  induction s with
  | nil =>
    rw [reSearch, matchAt_lits p []]
    constructor
    · intro h
      exact h.isInfix
    · intro h
      exact (List.infix_nil.mp h) ▸ List.nil_prefix
  | cons c cs ih =>
    rw [reSearch, Bool.or_eq_true, matchAt_lits p (c :: cs), ih, List.infix_cons_iff]

lemma pdStrContains_eq_isInfix {name pat : String}
    (hlit : ∀ c ∈ pat.data, c ≠ '.') :
    (pdStrContains name pat = true) ↔ pat.data <:+: name.data := by
  rw [pdStrContains, compilePat]
  have hmap : pat.data.map (fun c => if c = '.' then RTok.dot else RTok.lit c)
      = pat.data.map RTok.lit :=
    List.map_congr_left (fun c hc => by rw [if_neg (hlit c hc)])
  rw [hmap, reSearch_lits]

lemma pyUpperChar_eq_dot {c : Char} (h : pyUpperChar c = '.') : c = '.' := by
  by_cases hr : 97 ≤ c.toNat ∧ c.toNat ≤ 122
  · exfalso
    have ht : (pyUpperChar c).toNat = c.toNat - 32 := pyUpperChar_toNat_of_lower hr
    rw [h] at ht
    have hd : ('.' : Char).toNat = 46 := by decide
    omega
  · rw [pyUpperChar_of_not_lower hr] at h
    exact h

/-- C5 counterexample: the search string is interpreted as a regular
expression, not a literal substring: searching for `"."` keeps the
record named `"ANA"` although `"."` is not a substring of `"ANA"`. -/
theorem C5_regex_counterexample :
    buscaResult [sampleRec "A" "C" "ANA" 1] "." = some [sampleRec "A" "C" "ANA" 1] ∧
      ¬ ("." : String).data <:+: ("ANA" : String).data := by
  constructor
  · decide
  · decide

/-- C5 amended: with an empty search string no name predicate is
applied at all; with a non-empty search string free of regex
metacharacters, applied to records whose patient_name is upper-cased
(as all loader output is), the search keeps exactly the records whose
patient_name contains the search string case-insensitively (both sides
upper-cased) as a substring. -/
theorem C5_name_search_amended (l : List Record) (nome : String) :
    (nome = "" → buscaResult l nome = none) ∧
    (nome ≠ "" → (∀ c ∈ nome.data, c ∉ metaChars) →
      (∀ r ∈ l, pyUpper r.patient_name = r.patient_name) →
      buscaResult l nome =
        some (l.filter (fun r =>
          decide ((pyUpper nome).data <:+: (pyUpper r.patient_name).data)))) := by
  constructor
  · intro h
    rw [buscaResult, if_pos h]
  · intro hne hmeta hup
    rw [buscaResult, if_neg hne]
    congr 1
    apply List.filter_congr
    intro r hr
    have hdotU : ∀ c ∈ (pyUpper nome).data, c ≠ '.' := by
      intro c hc
      obtain ⟨c0, hc0, he⟩ := List.mem_map.mp hc
      intro hdot
      have hc0dot : c0 = '.' := pyUpperChar_eq_dot (he.trans hdot)
      have : ('.' : Char) ∈ metaChars := by decide
      exact hmeta c0 hc0 (hc0dot ▸ this)
    have h1 := @pdStrContains_eq_isInfix r.patient_name (pyUpper nome) hdotU
    rw [hup r hr]
    cases hb : pdStrContains r.patient_name (pyUpper nome) with
    | true =>
      symm
      rw [decide_eq_true_eq]
      exact h1.mp hb
    | false =>
      symm
      rw [decide_eq_false_iff_not]
      intro hco
      rw [h1.mpr hco] at hb
      cases hb

/-- C5 witness: the lower-case search `"an"` (no metacharacters) on an
upper-cased name list matches the record named `"ANA"`. -/
theorem C5_name_search_amended_witness :
    buscaResult [sampleRec "A" "C" "ANA" 1] "an" =
      some ([sampleRec "A" "C" "ANA" 1].filter (fun r =>
        decide ((pyUpper "an").data <:+: (pyUpper r.patient_name).data))) :=
  (C5_name_search_amended [sampleRec "A" "C" "ANA" 1] "an").2
    (by decide) (by decide) (by decide)
